import Mathlib

/-!
Verification of the ThreadPool repository (threadpool.h / threadpool.cpp).

The development is a shallow embedding of the repository's code:

* `Ty`, `AnyM`          — the type-erased `Any` container (threadpool.h, `Any`),
  restricted to the payload types the repository instantiates it with
  (`int`, `unsigned long long`, C strings).
* `ResultSt`            — the `Result` channel together with its `Semaphore`
  (threadpool.h, `Semaphore`/`Result`; threadpool.cpp, `Result::setVal`,
  `Result::get`).  The semaphore is its `resLimit_` counter.
* `TaskM`               — the `Task` base class; `run()` may throw, modelled by
  `Except`.  `Task::exec` is translated with C++ exception propagation:
  there is no try/catch in `Task::exec` nor around `task->exec()` in
  `ThreadPool::threadFunc`.
* `PoolCfg`, `PState`, `PoolStep`, `PoolReach` — an interleaving transition
  system for the pool: one transition per mutex critical section of
  `ThreadPool::submitTask`, `ThreadPool::threadFunc` and
  `ThreadPool::~ThreadPool`, plus the non-mutex actions (task execution,
  the destructor's unlocked write of `isPoolRunning_`).  Ghost fields
  (`accepted`, `dequeued`, `executed`, signal counters) record the event
  history so that ordering and signalling claims can be stated.

Tasks are identified by natural numbers; the queue holds task identifiers.
-/

/-- Payload types the repository stores in `Any`: `int`, the example's
`unsigned long long` (`uLong` in example/main.cpp), and C strings
(`Result::get` returns `""` for an invalid result). -/
inductive Ty
  | tInt
  | tULong
  | tStr
deriving DecidableEq, Repr

/-- Denotation of the payload types. -/
@[reducible] def Ty.denote : Ty → Type
  | .tInt => Int
  | .tULong => Nat
  | .tStr => String

/-- The `Any` container (threadpool.h): a base pointer that is either null
(default construction, or moved-from) or points to a `Derive<T>` holding a
`data_` of type `T`.  The runtime type information used by `dynamic_cast`
is the tag `t`. -/
structure AnyM where
  base : Option ((t : Ty) × t.denote)

/-- Default-constructed `Any()`: the base pointer is null. -/
def AnyM.empty : AnyM := ⟨none⟩

/-- The constructor `Any(T data)`: stores `data` in a `Derive<T>`. -/
def AnyM.ofVal (t : Ty) (v : t.denote) : AnyM := ⟨some ⟨t, v⟩⟩

/-- The `Any::cast_<T>()` member: `dynamic_cast` the base pointer to
`Derive<T>*`; on a null outcome (null base, or a stored type other than
`T`) it throws `"type is unmatch!"`, otherwise it returns `data_`. -/
def AnyM.cast (t : Ty) (a : AnyM) : Except String t.denote :=
  match a.base with
  | none => .error "type is unmatch!"
  | some ⟨u, v⟩ =>
      if h : u = t then .ok (h ▸ v) else .error "type is unmatch!"

/-- The `Any` produced by `return "";` in `Result::get` (an `Any` built from
the C-string literal `""`). -/
def AnyM.emptyStr : AnyM := AnyM.ofVal .tStr ""

/-- The `Result` channel together with its `Semaphore` (threadpool.h).
`sem` is the semaphore's `resLimit_` counter (initialised to 0), `isValid`
the `isValid_` flag fixed at construction, and `any` the stored `any_`
slot (null base before `setVal` and after a move-out). -/
structure ResultSt where
  isValid : Bool
  sem : Nat
  any : AnyM

/-- Constructor `Result(task, isValid)`: semaphore at 0, empty `any_` slot. -/
def ResultSt.make (isValid : Bool) : ResultSt := ⟨isValid, 0, AnyM.empty⟩

/-- Method `Result::setVal(Any any)`: store the value, then `sem_.release_()`
(increment `resLimit_` by one). -/
def ResultSt.setVal (r : ResultSt) (v : AnyM) : ResultSt :=
  { r with any := v, sem := r.sem + 1 }

/-- Outcome of one call to `Result::get`: either it returns a value (with
the channel state after the call), or it blocks inside `sem_.acquire_()`
because the semaphore counter is 0 and stays 0. -/
inductive GetOut
  | ret (v : AnyM) (r : ResultSt)
  | blocked

/-- Method `Result::get()` (threadpool.cpp): if `isValid_` is false, return `""`
immediately — no semaphore operation.  Otherwise `sem_.acquire_()`: block
while `resLimit_ == 0`, else decrement it; then `return std::move(any_)`,
which empties the `any_` slot. -/
def ResultSt.get (r : ResultSt) : GetOut :=
  if r.isValid = false then .ret AnyM.emptyStr r
  else if r.sem = 0 then .blocked
  else .ret r.any { r with sem := r.sem - 1, any := AnyM.empty }

/-- The value a call to `Result::get` returns, `none` if it blocks. -/
def ResultSt.getValue (r : ResultSt) : Option AnyM :=
  match r.get with
  | .ret v _ => some v
  | .blocked => none

/-- The channel state after a call to `Result::get` (unchanged if the call
blocks). -/
def ResultSt.afterGet (r : ResultSt) : ResultSt :=
  match r.get with
  | .ret _ r2 => r2
  | .blocked => r

/-- The `Task` base class: a user-supplied `run()` (which may throw,
modelled by `Except String`) and the `result_` back pointer installed by
`Result`'s constructor (`hasResult` is `result_ != nullptr`). -/
structure TaskM where
  run : Except String AnyM
  hasResult : Bool

/-- Method `Task::exec()` acting on the bound `Result`:
`if (result_ != nullptr) result_->setVal(run());`.  There is no try/catch:
an exception from `run()` propagates out of `exec()` (and then out of
`threadFunc`, which does not catch either). -/
def TaskM.exec (t : TaskM) (r : ResultSt) : Except String ResultSt :=
  if t.hasResult then
    match t.run with
    | .ok v => .ok (r.setVal v)
    | .error e => .error e
  else .ok r

/-! ## The pool transition system -/

/-- The `PoolMode` enumeration (threadpool.h). -/
inductive PoolMode
  | fixed
  | cached
deriving DecidableEq, Repr

/-- Program counter of a worker thread inside `ThreadPool::threadFunc`. -/
inductive WPC
  /-- Holding no lock, about to acquire `taskQueMtx_` and evaluate the
  `while (taskQue_.size() == 0)` condition. -/
  | loopTop
  /-- Blocked in `notEmpty_.wait` (fixed mode) or `notEmpty_.wait_for`
  (cached mode); the mutex is released while blocked. -/
  | waiting
  /-- Outside the lock scope, executing `task->exec()` for task `t`. -/
  | exec (t : Nat)
deriving DecidableEq, Repr

/-- A living worker: its program counter, and whether a
`notEmpty_.notify_all()` issued while it was waiting is still pending. -/
structure Worker where
  pc : WPC
  notified : Bool
deriving DecidableEq, Repr

/-- Program counter of `ThreadPool::~ThreadPool`. -/
inductive DtorPC
  /-- The destructor has not started. -/
  | notStarted
  /-- Statement `isPoolRunning_ = false;` executed (before the lock is taken). -/
  | flagCleared
  /-- The mutex was acquired, `notEmpty_.notify_all()` issued, and the
  destructor blocks in `exitCond_.wait(lock, threads_.size() == 0)`. -/
  | waitingExit
  /-- Call `exitCond_.wait` returned; the destructor is done. -/
  | done
deriving DecidableEq, Repr

/-- Pool configuration fixed before `start`: the mode, `initThreadSize_`
(the `start` argument), `taskQueMaxThreshold_` and
`threadSizeThreshold_`. -/
structure PoolCfg where
  poolMode : PoolMode
  initThreadSize : Nat
  taskQueMaxThreshold : Nat
  threadSizeThreshold : Nat
deriving DecidableEq, Repr

/-- Global state of the pool after `start`, plus ghost history fields.

`threads` is the worker registry `threads_` (a worker erases itself and
returns in one critical section, so registry membership and thread
liveness coincide).  `exitCondSignals`, `notFullSignals`,
`notEmptySignals` count the `notify_all` calls on the respective condition
variables.  `accepted`, `dequeued`, `executed` record, in order, the tasks
appended to `taskQue_`, popped from it, and whose `exec()` completed. -/
structure PState where
  isPoolRunning : Bool
  threads : List Worker
  taskQue : List Nat
  idleThreadSize : Int
  curThreadSize : Nat
  dtor : DtorPC
  exitCondSignals : Nat
  notFullSignals : Nat
  notEmptySignals : Nat
  accepted : List Nat
  dequeued : List Nat
  executed : List Nat
deriving DecidableEq, Repr

/-- Effect of `notEmpty_.notify_all()` on the workers: every worker
currently blocked on the condition variable gets a pending wakeup; a
worker not currently waiting is unaffected (condition variables do not
buffer notifications). -/
def notifyAllWorkers (ws : List Worker) : List Worker :=
  ws.map fun w => if w.pc = .waiting then { w with notified := true } else w

/-- State reached by `ThreadPool::start(initThreadSize)` (threadpool.cpp):
`isPoolRunning_ = true`, `curThreadSize_ = initThreadSize_`, one worker
created and started per initial thread (each start increments
`idleThreadSize_`).  `q0` is the content of `taskQue_` at that moment
(tasks submitted before `start`; `submitTask` never checks the running
flag, so this may be non-empty). -/
def startState (cfg : PoolCfg) (q0 : List Nat) : PState :=
  { isPoolRunning := true
    threads := List.replicate cfg.initThreadSize ⟨.loopTop, false⟩
    taskQue := q0
    idleThreadSize := (cfg.initThreadSize : Int)
    curThreadSize := cfg.initThreadSize
    dtor := .notStarted
    exitCondSignals := 0
    notFullSignals := 0
    notEmptySignals := 0
    accepted := q0
    dequeued := []
    executed := [] }

/-- The enqueue part of the accepting branch of `ThreadPool::submitTask`
(threadpool.cpp): `taskQue_.emplace(task)`, `taskSize_++`,
`notEmpty_.notify_all()`. -/
def submitEnqUpd (s : PState) (t : Nat) : PState :=
  { s with
    taskQue := s.taskQue ++ [t]
    accepted := s.accepted ++ [t]
    threads := notifyAllWorkers s.threads
    notEmptySignals := s.notEmptySignals + 1 }

/-- The cached-mode growth step at the end of `submitTask`: spawn one
worker, insert it into `threads_`, `start()` it, and increment
`curThreadSize_` and `idleThreadSize_`. -/
def spawnUpd (s : PState) : PState :=
  { s with
    threads := s.threads ++ [⟨.loopTop, false⟩]
    curThreadSize := s.curThreadSize + 1
    idleThreadSize := s.idleThreadSize + 1 }

/-- Successor state of the whole accepting branch of
`ThreadPool::submitTask`: enqueue and notify, then in cached mode, if
`taskSize_ > idleThreadSize_ && curThreadSize_ < threadSizeThreshold_`,
spawn one worker.  (`taskSize_` always equals `taskQue_.size()`: both are
updated together under the mutex, so the spawn guard reads the length of
the just-extended queue.) -/
def submitUpd (cfg : PoolCfg) (s : PState) (t : Nat) : PState :=
  if cfg.poolMode = .cached
      ∧ ((submitEnqUpd s t).taskQue.length : Int) > (submitEnqUpd s t).idleThreadSize
      ∧ (submitEnqUpd s t).curThreadSize < cfg.threadSizeThreshold then
    spawnUpd (submitEnqUpd s t)
  else submitEnqUpd s t

/-- Successor state of the dequeue section of `ThreadPool::threadFunc`
(threadpool.cpp): `idleThreadSize_--`, take `taskQue_.front()`, `pop`,
`taskSize_--`, `notEmpty_.notify_all()` if tasks remain,
`notFull_.notify_all()`; the worker then leaves the lock scope and
executes the task. -/
def dequeueUpd (s : PState) (pre post : List Worker) (w : Worker)
    (t : Nat) (rest : List Nat) : PState :=
  let thr := pre ++ ({ w with pc := .exec t } : Worker) :: post
  { s with
    idleThreadSize := s.idleThreadSize - 1
    taskQue := rest
    dequeued := s.dequeued ++ [t]
    threads := if rest = [] then thr else notifyAllWorkers thr
    notEmptySignals := if rest = [] then s.notEmptySignals
                       else s.notEmptySignals + 1
    notFullSignals := s.notFullSignals + 1 }

/-- Successor state when `task->exec()` returns in
`ThreadPool::threadFunc`: `idleThreadSize_++`, loop again. -/
def execDoneUpd (s : PState) (pre post : List Worker) (w : Worker)
    (t : Nat) : PState :=
  { s with
    threads := pre ++ ({ w with pc := .loopTop } : Worker) :: post
    idleThreadSize := s.idleThreadSize + 1
    executed := s.executed ++ [t] }

/-- Successor state when a worker enters `notEmpty_.wait` /
`notEmpty_.wait_for` (queue empty, pool observed running). -/
def startWaitUpd (s : PState) (pre post : List Worker) : PState :=
  { s with threads := pre ++ ({ pc := .waiting, notified := false } : Worker) :: post }

/-- Successor state when a blocked worker resumes with the mutex and goes
back to the `while (taskQue_.size() == 0)` test (a notification, a
cached-mode timeout that does not retire, or a spurious wakeup). -/
def wakeUpd (s : PState) (pre post : List Worker) : PState :=
  { s with threads := pre ++ ({ pc := .loopTop, notified := false } : Worker) :: post }

/-- Successor state of the cached-mode idle-retire branch of
`ThreadPool::threadFunc`: `threads_.erase(threadId)`, `curThreadSize_--`,
`idleThreadSize_--`, `return`.  Note: no `exitCond_` notification on this
path. -/
def retireUpd (s : PState) (pre post : List Worker) : PState :=
  { s with
    threads := pre ++ post
    curThreadSize := s.curThreadSize - 1
    idleThreadSize := s.idleThreadSize - 1 }

/-- Successor state of the shutdown-exit branch of
`ThreadPool::threadFunc` (queue empty and `!isPoolRunning_`):
`threads_.erase(threadId)`, `exitCond_.notify_all()`, `return`.  Note:
neither `curThreadSize_` nor `idleThreadSize_` is decremented on this
path. -/
def shutdownExitUpd (s : PState) (pre post : List Worker) : PState :=
  { s with
    threads := pre ++ post
    exitCondSignals := s.exitCondSignals + 1 }

/-- Successor state of the destructor's first action,
`isPoolRunning_ = false;` — executed before the mutex is acquired. -/
def dtorFlagUpd (s : PState) : PState :=
  { s with isPoolRunning := false, dtor := .flagCleared }

/-- Successor state of the destructor's locked section: acquire
`taskQueMtx_`, `notEmpty_.notify_all()`, and enter
`exitCond_.wait(lock, threads_.size() == 0)`. -/
def dtorBroadcastUpd (s : PState) : PState :=
  { s with
    threads := notifyAllWorkers s.threads
    notEmptySignals := s.notEmptySignals + 1
    dtor := .waitingExit }

/-- Successor state when `exitCond_.wait` observes `threads_.size() == 0`
and returns. -/
def dtorFinishUpd (s : PState) : PState :=
  { s with dtor := .done }

/-- One transition of the pool.  Each constructor is one critical section
of the source (or one non-mutex action); its side conditions are the
guards the source checks inside that section.  Submissions are modelled
while the pool runs (the destructor transitions model shutdown; tasks
submitted before `start` are the `q0` of `startState`). -/
inductive PoolStep (cfg : PoolCfg) : PState → PState → Prop
  /-- Accepting branch of `submitTask`: `notFull_.wait_for` returned with
  `taskQue_.size() < taskQueMaxThreshold_`. -/
  | submit (s : PState) (t : Nat)
      (hrun : s.isPoolRunning = true)
      (hcap : s.taskQue.length < cfg.taskQueMaxThreshold) :
      PoolStep cfg s (submitUpd cfg s t)
  /-- A worker at the `while` test finds the queue non-empty and pops the
  front task. -/
  | dequeue (s : PState) (pre post : List Worker) (w : Worker)
      (t : Nat) (rest : List Nat)
      (hth : s.threads = pre ++ w :: post)
      (hpc : w.pc = .loopTop)
      (hq : s.taskQue = t :: rest) :
      PoolStep cfg s (dequeueUpd s pre post w t rest)
  /-- Call `task->exec()` returns and the worker re-enters the loop. -/
  | execDone (s : PState) (pre post : List Worker) (w : Worker) (t : Nat)
      (hth : s.threads = pre ++ w :: post)
      (hpc : w.pc = .exec t) :
      PoolStep cfg s (execDoneUpd s pre post w t)
  /-- A worker at the `while` test finds the queue empty and the pool
  running, and blocks on `notEmpty_`. -/
  | startWait (s : PState) (pre post : List Worker) (w : Worker)
      (hth : s.threads = pre ++ w :: post)
      (hpc : w.pc = .loopTop)
      (hq : s.taskQue = [])
      (hrun : s.isPoolRunning = true) :
      PoolStep cfg s (startWaitUpd s pre post)
  /-- A blocked worker resumes and re-tests the `while` condition. -/
  | wake (s : PState) (pre post : List Worker) (w : Worker)
      (hth : s.threads = pre ++ w :: post)
      (hpc : w.pc = .waiting) :
      PoolStep cfg s (wakeUpd s pre post)
  /-- Cached-mode idle retire: `wait_for` timed out, the idle time exceeds
  `THREAD_MAX_IDLE_TIME`, and `curThreadSize_ > initThreadSize_`. -/
  | retire (s : PState) (pre post : List Worker) (w : Worker)
      (hmode : cfg.poolMode = .cached)
      (hth : s.threads = pre ++ w :: post)
      (hpc : w.pc = .waiting)
      (hcur : cfg.initThreadSize < s.curThreadSize) :
      PoolStep cfg s (retireUpd s pre post)
  /-- Shutdown exit: queue empty and `!isPoolRunning_`. -/
  | shutdownExit (s : PState) (pre post : List Worker) (w : Worker)
      (hth : s.threads = pre ++ w :: post)
      (hpc : w.pc = .loopTop)
      (hq : s.taskQue = [])
      (hrun : s.isPoolRunning = false) :
      PoolStep cfg s (shutdownExitUpd s pre post)
  /-- Destructor, first action: clear the running flag (unlocked). -/
  | dtorFlag (s : PState)
      (h : s.dtor = .notStarted) :
      PoolStep cfg s (dtorFlagUpd s)
  /-- Destructor, locked section: broadcast `notEmpty_` and wait on
  `exitCond_`. -/
  | dtorBroadcast (s : PState)
      (h : s.dtor = .flagCleared) :
      PoolStep cfg s (dtorBroadcastUpd s)
  /-- Destructor: `exitCond_.wait` returns once the registry is empty. -/
  | dtorFinish (s : PState)
      (h : s.dtor = .waitingExit)
      (hth : s.threads = []) :
      PoolStep cfg s (dtorFinishUpd s)

/-- Reachability from the post-`start` state with initial queue `q0`. -/
inductive PoolReach (cfg : PoolCfg) (q0 : List Nat) : PState → Prop
  | init : PoolReach cfg q0 (startState cfg q0)
  | step {s s2 : PState} : PoolReach cfg q0 s → PoolStep cfg s s2 →
      PoolReach cfg q0 s2

/-- The task a worker is currently executing, if any. -/
def execOf (w : Worker) : Option Nat :=
  match w.pc with
  | .exec t => some t
  | _ => none

/-- Tasks currently being executed by some worker (dequeued, `exec()` not
yet returned). -/
def inflight (s : PState) : List Nat :=
  s.threads.filterMap execOf

/-- The destructor body, as the sequence of actions of
`ThreadPool::~ThreadPool` (threadpool.cpp lines 26–44): write
`isPoolRunning_ = false`, construct the `unique_lock` on `taskQueMtx_`,
`notEmpty_.notify_all()`, `exitCond_.wait(...)`, release the lock at scope
exit. -/
inductive DtorInstr
  | setRunningFalse
  | acquireMutex
  | broadcastNotEmpty
  | waitExitCond
  | releaseMutex
deriving DecidableEq, Repr

/-- The destructor's instruction sequence, in source order. -/
def dtorBody : List DtorInstr :=
  [.setRunningFalse, .acquireMutex, .broadcastNotEmpty, .waitExitCond,
   .releaseMutex]

/-- The inductive invariant of the pool transition system.  Conjuncts:
1. FIFO history: the accepted tasks are the dequeued ones followed by the
   still-queued ones;
2. every dequeued task is either executed or in flight on some worker;
3. `curThreadSize_` counts the living workers plus the shutdown exits
   (the shutdown-exit path does not decrement `curThreadSize_`);
4. the running flag is false exactly once the destructor has started;
5. once some worker took the shutdown exit, the queue is empty for good
   and the pool is not running;
6. `curThreadSize_` never drops below `initThreadSize_`;
7. if `initThreadSize_ ≤ threadSizeThreshold_` then `curThreadSize_`
   never exceeds `threadSizeThreshold_`;
8. no lost wakeup: once the destructor has broadcast `notEmpty_`, every
   waiting worker has a pending notification;
9. after the destructor finished, the registry stays empty. -/
def PoolInv (cfg : PoolCfg) (s : PState) : Prop :=
  s.accepted = s.dequeued ++ s.taskQue
  ∧ (s.dequeued : Multiset Nat)
      = (s.executed : Multiset Nat) + (inflight s : Multiset Nat)
  ∧ s.curThreadSize = s.threads.length + s.exitCondSignals
  ∧ (s.isPoolRunning = false ↔ s.dtor ≠ .notStarted)
  ∧ (1 ≤ s.exitCondSignals → s.taskQue = [] ∧ s.isPoolRunning = false)
  ∧ cfg.initThreadSize ≤ s.curThreadSize
  ∧ (cfg.initThreadSize ≤ cfg.threadSizeThreshold →
      s.curThreadSize ≤ cfg.threadSizeThreshold)
  ∧ ((s.dtor = .waitingExit ∨ s.dtor = .done) →
      ∀ w ∈ s.threads, w.pc = .waiting → w.notified = true)
  ∧ (s.dtor = .done → s.threads = [])

/-- Model of `ThreadPool::submitTask` as a function of the pool state at the moment
`notFull_.wait_for` returns.  `wait_for(lock, 1s, pred)` with
`pred = taskQue_.size() < taskQueMaxThreshold_` returns the value of
`pred` when it hands the lock back (immediately if the queue has room,
else after at most one second of waiting).  If it returns false — the
queue stayed at capacity for the whole bounded wait — the task is not
enqueued and `Result(task, false)` is returned; otherwise the task is
enqueued (with the `notEmpty_` notification and the cached-mode spawn
check of `submitUpd`) and `Result(task)` is returned.  `submitTask` never
reads `isPoolRunning_`. -/
def submitTask (cfg : PoolCfg) (s : PState) (t : Nat) : PState × ResultSt :=
  if s.taskQue.length < cfg.taskQueMaxThreshold then
    (submitUpd cfg s t, ResultSt.make true)
  else (s, ResultSt.make false)

/-- A task whose user `run()` throws. -/
def failingTask : TaskM := ⟨Except.error "boom", true⟩

/-- A published result channel: `Result(task)` after the worker called
`setVal` with the value 7 (of the example's `uLong` type). -/
def publishedResult : ResultSt := (ResultSt.make true).setVal (AnyM.ofVal .tULong 7)

/-! ### Concrete configurations and traces

Used below to evaluate the theorems on explicit runs of the pool. -/

/-- A fixed pool started with one worker (thresholds at their source
defaults 1024 and 100). -/
def cfgFixed1 : PoolCfg := ⟨.fixed, 1, 1024, 100⟩

/-- A cached pool started with one worker, thread threshold 8. -/
def cfgCached1 : PoolCfg := ⟨.cached, 1, 1024, 8⟩

/-- A cached pool started with 101 workers while `threadSizeThreshold_`
is the default 100. -/
def cfgCached101 : PoolCfg := ⟨.cached, 101, 1024, 100⟩

/-- Trace A (fixed pool, one worker, no tasks): complete shutdown.
Stage 0: the post-`start` state. -/
def trA0 : PState := startState cfgFixed1 []

/-- Trace A stage 1: the destructor clears the running flag. -/
def trA1 : PState := dtorFlagUpd trA0

/-- Trace A stage 2: the destructor broadcasts and waits on `exitCond_`. -/
def trA2 : PState := dtorBroadcastUpd trA1

/-- Trace A stage 3: the worker observes the empty queue and the cleared
flag, erases itself, and signals `exitCond_`. -/
def trA3 : PState := shutdownExitUpd trA2 [] []

/-- Trace A stage 4: `exitCond_.wait` sees the empty registry; the
destructor returns. -/
def trA4 : PState := dtorFinishUpd trA3

/-- Trace B (fixed pool, one worker): the worker blocks, then the
destructor starts.  Stage 1: the worker enters `notEmpty_.wait`. -/
def trB1 : PState := startWaitUpd trA0 [] []

/-- Trace B stage 2: the destructor clears the running flag (the worker is
still blocked). -/
def trB2 : PState := dtorFlagUpd trB1

/-- Trace B stage 3: the destructor broadcasts `notEmpty_` under the lock;
the blocked worker now holds a pending notification. -/
def trB3 : PState := dtorBroadcastUpd trB2

/-- Trace C (cached pool, one initial worker): submit, dequeue, submit
(spawning a second worker), dequeue, run both tasks, then the second
worker idles and retires.  Stage 1: task 10 submitted. -/
def trC1 : PState := submitUpd cfgCached1 (startState cfgCached1 []) 10

/-- Trace C stage 2: the initial worker dequeues task 10. -/
def trC2 : PState := dequeueUpd trC1 [] [] ⟨.loopTop, false⟩ 10 []

/-- Trace C stage 3: task 20 submitted; `taskSize_ > idleThreadSize_` and
`curThreadSize_ < threadSizeThreshold_`, so a second worker is spawned. -/
def trC3 : PState := submitUpd cfgCached1 trC2 20

/-- Trace C stage 4: the spawned worker dequeues task 20. -/
def trC4 : PState := dequeueUpd trC3 [⟨.exec 10, false⟩] [] ⟨.loopTop, false⟩ 20 []

/-- Trace C stage 5: the initial worker finishes task 10. -/
def trC5 : PState := execDoneUpd trC4 [] [⟨.exec 20, false⟩] ⟨.exec 10, false⟩ 10

/-- Trace C stage 6: the spawned worker finishes task 20. -/
def trC6 : PState := execDoneUpd trC5 [⟨.loopTop, false⟩] [] ⟨.exec 20, false⟩ 20

/-- Trace C stage 7: the spawned worker finds the queue empty and blocks
in `notEmpty_.wait_for`. -/
def trC7 : PState := startWaitUpd trC6 [⟨.loopTop, false⟩] []

/-- Trace C stage 8: the spawned worker's `wait_for` times out with idle
time over the limit and `curThreadSize_ > initThreadSize_`: it erases
itself — without signalling `exitCond_`. -/
def trC8 : PState := retireUpd trC7 [⟨.loopTop, false⟩] []

/-! ## Theorems -/

/-- The accepting branch of `submitTask` appends the task to the queue,
whether or not it spawns a cached-mode worker. -/
theorem submitUpd_taskQue (cfg : PoolCfg) (s : PState) (t : Nat) :
    (submitUpd cfg s t).taskQue = s.taskQue ++ [t] := by
  unfold submitUpd; split <;> rfl

/-- C9: storing a value of type `T` in `Any` and extracting it as `T` is
the identity; extracting it as any other type fails with the type-mismatch
error (`dynamic_cast` yields null and `cast_` throws). -/
theorem c9_any_cast_roundtrip (t u : Ty) (v : t.denote) (hne : u ≠ t) :
    (AnyM.ofVal t v).cast t = Except.ok v
    ∧ (AnyM.ofVal t v).cast u = Except.error "type is unmatch!" := by
  constructor
  · simp [AnyM.cast, AnyM.ofVal]
  · simp [AnyM.cast, AnyM.ofVal, Ne.symm hne]

/-- Witness for C9 at the example's `uLong` payload, extracted as `uLong`
and as a string. -/
theorem c9_any_cast_roundtrip_witness :
    Ty.tStr ≠ Ty.tULong
    ∧ ((AnyM.ofVal .tULong 42).cast .tULong = Except.ok 42
       ∧ (AnyM.ofVal .tULong 42).cast .tStr
           = Except.error "type is unmatch!") :=
  ⟨by decide, c9_any_cast_roundtrip .tULong .tStr 42 (by decide)⟩

/-- C2: if the queue is still at capacity when `notFull_.wait_for` returns
(it stayed full for the one-second bounded wait), `submitTask` leaves the
pool state unchanged and returns `Result(task, false)`; `get()` on that
invalid result returns the empty value immediately, leaving the channel —
in particular its semaphore — untouched (no `acquire_`, no blocking). -/
theorem c2_submit_overflow (cfg : PoolCfg) (s : PState) (t : Nat)
    (hfull : cfg.taskQueMaxThreshold ≤ s.taskQue.length) :
    (submitTask cfg s t).1 = s
    ∧ (submitTask cfg s t).2.isValid = false
    ∧ (submitTask cfg s t).2.get
        = GetOut.ret AnyM.emptyStr (submitTask cfg s t).2 := by
  have h : ¬ s.taskQue.length < cfg.taskQueMaxThreshold := Nat.not_lt.2 hfull
  refine ⟨?_, ?_, ?_⟩ <;> simp [submitTask, h, ResultSt.make, ResultSt.get]

/-- Witness for C2: a pool whose queue (of capacity 2) holds two tasks. -/
theorem c2_submit_overflow_witness :
    (2 : Nat) ≤ ((startState ⟨.fixed, 1, 2, 100⟩ [8, 9]).taskQue).length
    ∧ ((submitTask ⟨.fixed, 1, 2, 100⟩ (startState ⟨.fixed, 1, 2, 100⟩ [8, 9]) 10).1
         = startState ⟨.fixed, 1, 2, 100⟩ [8, 9]
       ∧ (submitTask ⟨.fixed, 1, 2, 100⟩ (startState ⟨.fixed, 1, 2, 100⟩ [8, 9]) 10).2.isValid = false
       ∧ (submitTask ⟨.fixed, 1, 2, 100⟩ (startState ⟨.fixed, 1, 2, 100⟩ [8, 9]) 10).2.get
           = GetOut.ret AnyM.emptyStr
               (submitTask ⟨.fixed, 1, 2, 100⟩ (startState ⟨.fixed, 1, 2, 100⟩ [8, 9]) 10).2) :=
  ⟨by decide,
   c2_submit_overflow ⟨.fixed, 1, 2, 100⟩ (startState ⟨.fixed, 1, 2, 100⟩ [8, 9]) 10 (by decide)⟩

/-- C10: `submitTask` never checks the running flag — its outcome is the
same whatever `isPoolRunning_` is — and a submission while the pool is not
running, with the queue below capacity, enqueues the task normally and
returns a valid `Result`. -/
theorem c10_submit_ignores_running (cfg : PoolCfg) (s : PState) (t : Nat) :
    (∀ b : Bool,
      (submitTask cfg { s with isPoolRunning := b } t).2 = (submitTask cfg s t).2
      ∧ (submitTask cfg { s with isPoolRunning := b } t).1.taskQue
          = (submitTask cfg s t).1.taskQue)
    ∧ (s.isPoolRunning = false → s.taskQue.length < cfg.taskQueMaxThreshold →
        (submitTask cfg s t).1.taskQue = s.taskQue ++ [t]
        ∧ (submitTask cfg s t).2.isValid = true) := by
  constructor
  · intro b
    by_cases h : s.taskQue.length < cfg.taskQueMaxThreshold <;>
      simp [submitTask, h, submitUpd_taskQue]
  · intro _ h
    simp [submitTask, h, submitUpd_taskQue, ResultSt.make]

/-- Witness for C10: a stopped pool (flag false) with a free queue slot
accepts the task. -/
theorem c10_submit_ignores_running_witness :
    ((dtorFlagUpd (startState cfgFixed1 [])).isPoolRunning = false
     ∧ (dtorFlagUpd (startState cfgFixed1 [])).taskQue.length
         < cfgFixed1.taskQueMaxThreshold)
    ∧ ((submitTask cfgFixed1 (dtorFlagUpd (startState cfgFixed1 [])) 3).1.taskQue
         = (dtorFlagUpd (startState cfgFixed1 [])).taskQue ++ [3]
       ∧ (submitTask cfgFixed1 (dtorFlagUpd (startState cfgFixed1 [])) 3).2.isValid = true) :=
  ⟨⟨by decide, by decide⟩,
   (c10_submit_ignores_running cfgFixed1 (dtorFlagUpd (startState cfgFixed1 [])) 3).2
     (by decide) (by decide)⟩

/-- C5 is false on the code: neither `Task::exec` nor the call site
`task->exec()` in `ThreadFunc` contains a try/catch, so a throwing `run()`
does not leave `exec` completing normally.  Concretely, a task whose
`run()` throws `"boom"` makes `exec()` propagate `"boom"` instead of
publishing anything. -/
theorem c5_counterexample :
    failingTask.exec (ResultSt.make true) = Except.error "boom"
    ∧ ¬ (∀ (tk : TaskM) (r : ResultSt), ∃ r2, tk.exec r = Except.ok r2) := by
  constructor
  · rfl
  · intro h
    obtain ⟨r2, hr⟩ := h failingTask (ResultSt.make true)
    simp [failingTask, TaskM.exec] at hr

/-- C5 amended: an exception from the user `run()` is not caught: it
propagates out of `exec()` unchanged, and nothing is published to the
result channel (in particular `setVal` is never reached, so the readiness
semaphore is not released). -/
theorem c5_exec_propagates (tk : TaskM) (e : String) (r : ResultSt)
    (hres : tk.hasResult = true) (hrun : tk.run = Except.error e) :
    tk.exec r = Except.error e := by
  simp [TaskM.exec, hres, hrun]

/-- Witness for the amended C5 at the concrete throwing task. -/
theorem c5_exec_propagates_witness :
    failingTask.hasResult = true
    ∧ failingTask.run = Except.error "boom"
    ∧ failingTask.exec (ResultSt.make true) = Except.error "boom" :=
  ⟨rfl, rfl, c5_exec_propagates failingTask "boom" (ResultSt.make true) rfl rfl⟩

/-- C6 is false on the code: `Result::get` does `sem_.acquire_()` and then
`return std::move(any_)`.  `setVal` releases the semaphore exactly once,
the first `get` consumes that single release and moves the value out, so a
second call to `get` blocks in `acquire_` instead of returning the stored
value — `get` is not idempotent after delivery. -/
theorem c6_counterexample :
    publishedResult.getValue = some (AnyM.ofVal .tULong 7)
    ∧ publishedResult.afterGet.get = GetOut.blocked
    ∧ ¬ (∀ v : AnyM,
          (((ResultSt.make true).setVal v).afterGet).getValue = some v) := by
  refine ⟨rfl, rfl, ?_⟩
  intro h
  have h7 := h (AnyM.ofVal .tULong 7)
  rw [show (((ResultSt.make true).setVal (AnyM.ofVal .tULong 7)).afterGet).getValue
        = none from rfl] at h7
  exact Option.noConfusion h7

/-- C6 amended: on a valid channel whose semaphore is fresh, after one
`setVal` the first `get` returns the stored value without blocking, and it
leaves the channel with the semaphore back at 0 and the value slot moved
out, so the next `get` blocks. -/
theorem c6_single_get (r : ResultSt) (v : AnyM)
    (hv : r.isValid = true) (hsem : r.sem = 0) :
    (r.setVal v).getValue = some v
    ∧ (r.setVal v).afterGet = { r with any := AnyM.empty }
    ∧ ((r.setVal v).afterGet).get = GetOut.blocked := by
  obtain ⟨iv, sem, a⟩ := r
  simp only at hv hsem
  subst hv hsem
  exact ⟨rfl, rfl, rfl⟩

/-- Witness for the amended C6 at a fresh valid channel and the value 7. -/
theorem c6_single_get_witness :
    ((ResultSt.make true).isValid = true ∧ (ResultSt.make true).sem = 0)
    ∧ (((ResultSt.make true).setVal (AnyM.ofVal .tULong 7)).getValue
         = some (AnyM.ofVal .tULong 7)
       ∧ ((ResultSt.make true).setVal (AnyM.ofVal .tULong 7)).afterGet
           = { ResultSt.make true with any := AnyM.empty }
       ∧ (((ResultSt.make true).setVal (AnyM.ofVal .tULong 7)).afterGet).get
           = GetOut.blocked) :=
  ⟨⟨rfl, rfl⟩, c6_single_get (ResultSt.make true) (AnyM.ofVal .tULong 7) rfl rfl⟩

/-! ### Helper lemmas about workers and notifications -/

theorem notify1_pc (w : Worker) :
    (if w.pc = .waiting then { w with notified := true } else w).pc = w.pc := by
  split <;> rfl

theorem execOf_notify1 (w : Worker) :
    execOf (if w.pc = .waiting then { w with notified := true } else w) = execOf w := by
  unfold execOf
  rw [notify1_pc]

theorem length_notifyAllWorkers (ws : List Worker) :
    (notifyAllWorkers ws).length = ws.length := by
  simp [notifyAllWorkers]

theorem filterMap_execOf_notifyAllWorkers (ws : List Worker) :
    (notifyAllWorkers ws).filterMap execOf = ws.filterMap execOf := by
  induction ws with
  | nil => rfl
  | cons w ws ih =>
      simp only [notifyAllWorkers, List.map_cons, List.filterMap_cons] at *
      rw [execOf_notify1]
      cases execOf w <;> simp [ih]

/-- After a broadcast, every waiting worker carries a pending wakeup. -/
theorem mem_notifyAllWorkers_waiting {w2 : Worker} {ws : List Worker}
    (hw : w2 ∈ notifyAllWorkers ws) (hpc : w2.pc = .waiting) :
    w2.notified = true := by
  obtain ⟨w, _, rfl⟩ := List.mem_map.1 hw
  by_cases h : w.pc = .waiting
  · simp [h]
  · simp [h] at hpc

theorem mem_middle_elim {w2 w1 : Worker} {pre post : List Worker}
    (h : w2 ∈ pre ++ w1 :: post) : w2 ∈ pre ∨ w2 = w1 ∨ w2 ∈ post := by
  simp only [List.mem_append, List.mem_cons] at h
  tauto

theorem mem_left_middle {w2 w1 : Worker} {pre post : List Worker}
    (h : w2 ∈ pre) : w2 ∈ pre ++ w1 :: post :=
  List.mem_append_left _ h

theorem mem_right_middle {w2 w1 : Worker} {pre post : List Worker}
    (h : w2 ∈ post) : w2 ∈ pre ++ w1 :: post :=
  List.mem_append_right _ (List.mem_cons_of_mem _ h)

/-! ### Shapes of the in-flight task list under each transition -/

theorem inflight_eq_of_threads {s : PState} {pre post : List Worker} {w : Worker}
    (hth : s.threads = pre ++ w :: post) (hw : execOf w = none) :
    inflight s = pre.filterMap execOf ++ post.filterMap execOf := by
  rw [inflight, hth]
  simp [List.filterMap_append, List.filterMap_cons, hw]

theorem inflight_eq_of_threads_exec {s : PState} {pre post : List Worker} {w : Worker}
    {t : Nat} (hth : s.threads = pre ++ w :: post) (hw : execOf w = some t) :
    inflight s = pre.filterMap execOf ++ t :: post.filterMap execOf := by
  rw [inflight, hth]
  simp [List.filterMap_append, List.filterMap_cons, hw]

theorem inflight_dequeueUpd (s : PState) (pre post : List Worker) (w : Worker)
    (t : Nat) (rest : List Nat) :
    inflight (dequeueUpd s pre post w t rest)
      = pre.filterMap execOf ++ t :: post.filterMap execOf := by
  unfold dequeueUpd inflight
  by_cases hrest : rest = [] <;>
    simp [hrest, filterMap_execOf_notifyAllWorkers, List.filterMap_append,
      List.filterMap_cons, execOf]

theorem length_dequeueUpd_threads (s : PState) (pre post : List Worker)
    (w : Worker) (t : Nat) (rest : List Nat) :
    (dequeueUpd s pre post w t rest).threads.length
      = (pre ++ w :: post : List Worker).length := by
  unfold dequeueUpd
  by_cases hrest : rest = [] <;> simp [hrest, notifyAllWorkers]

theorem inflight_execDoneUpd (s : PState) (pre post : List Worker) (w : Worker)
    (t : Nat) :
    inflight (execDoneUpd s pre post w t)
      = pre.filterMap execOf ++ post.filterMap execOf := by
  unfold execDoneUpd inflight
  simp [List.filterMap_append, List.filterMap_cons, execOf]

/-! ### Preservation of the invariant, one lemma per transition -/

theorem poolInv_submit (cfg : PoolCfg) (s : PState) (t : Nat)
    (hrun : s.isPoolRunning = true) (hinv : PoolInv cfg s) :
    PoolInv cfg (submitUpd cfg s t) := by
  obtain ⟨h1, h2, h3, h4, h5, h6, h7, h8, h9⟩ := hinv
  have hns : 1 ≤ s.exitCondSignals → False := by
    intro hx
    rw [(h5 hx).2] at hrun
    exact Bool.noConfusion hrun
  have hd8 : ¬ (s.dtor = DtorPC.waitingExit ∨ s.dtor = DtorPC.done) := by
    intro hd
    have hne : s.dtor ≠ DtorPC.notStarted := by
      rcases hd with h | h <;> rw [h] <;> exact fun hc => DtorPC.noConfusion hc
    rw [h4.mpr hne] at hrun
    exact Bool.noConfusion hrun
  unfold submitUpd
  split
  next hcond =>
    refine ⟨?_, ?_, ?_, ?_, ?_, ?_, ?_, ?_, ?_⟩
    · show s.accepted ++ [t] = s.dequeued ++ (s.taskQue ++ [t])
      rw [h1, List.append_assoc]
    · show (s.dequeued : Multiset Nat)
          = ↑s.executed + ↑(inflight (spawnUpd (submitEnqUpd s t)))
      have hinf : inflight (spawnUpd (submitEnqUpd s t)) = inflight s := by
        unfold inflight spawnUpd submitEnqUpd
        simp [List.filterMap_append, filterMap_execOf_notifyAllWorkers, execOf]
      rw [hinf]
      exact h2
    · show s.curThreadSize + 1
          = (notifyAllWorkers s.threads
              ++ [({ pc := WPC.loopTop, notified := false } : Worker)]).length
              + s.exitCondSignals
      simp only [List.length_append, length_notifyAllWorkers, List.length_cons,
        List.length_nil]
      omega
    · exact h4
    · intro hx
      exact (hns hx).elim
    · show cfg.initThreadSize ≤ s.curThreadSize + 1
      omega
    · intro _
      have hlt : s.curThreadSize < cfg.threadSizeThreshold := hcond.2.2
      show s.curThreadSize + 1 ≤ cfg.threadSizeThreshold
      omega
    · intro hd
      exact (hd8 hd).elim
    · intro hdone
      exact (hd8 (Or.inr hdone)).elim
  next =>
    refine ⟨?_, ?_, ?_, ?_, ?_, ?_, ?_, ?_, ?_⟩
    · show s.accepted ++ [t] = s.dequeued ++ (s.taskQue ++ [t])
      rw [h1, List.append_assoc]
    · show (s.dequeued : Multiset Nat)
          = ↑s.executed + ↑(inflight (submitEnqUpd s t))
      have hinf : inflight (submitEnqUpd s t) = inflight s := by
        unfold inflight submitEnqUpd
        exact filterMap_execOf_notifyAllWorkers _
      rw [hinf]
      exact h2
    · show s.curThreadSize = (notifyAllWorkers s.threads).length + s.exitCondSignals
      rw [length_notifyAllWorkers]
      exact h3
    · exact h4
    · intro hx
      exact (hns hx).elim
    · exact h6
    · exact h7
    · intro hd
      exact (hd8 hd).elim
    · intro hdone
      exact (hd8 (Or.inr hdone)).elim

theorem poolInv_dequeue (cfg : PoolCfg) (s : PState) (pre post : List Worker)
    (w : Worker) (t : Nat) (rest : List Nat)
    (hth : s.threads = pre ++ w :: post) (hpc : w.pc = .loopTop)
    (hq : s.taskQue = t :: rest) (hinv : PoolInv cfg s) :
    PoolInv cfg (dequeueUpd s pre post w t rest) := by
  obtain ⟨h1, h2, h3, h4, h5, h6, h7, h8, h9⟩ := hinv
  have hw0 : execOf w = none := by
    unfold execOf
    rw [hpc]
  refine ⟨?_, ?_, ?_, ?_, ?_, ?_, ?_, ?_, ?_⟩
  · show s.accepted = (s.dequeued ++ [t]) ++ rest
    rw [h1, hq]
    simp
  · show ((s.dequeued ++ [t] : List Nat) : Multiset Nat)
        = ↑s.executed + ↑(inflight (dequeueUpd s pre post w t rest))
    rw [inflight_dequeueUpd]
    rw [inflight_eq_of_threads hth hw0] at h2
    simp only [← Multiset.coe_add, ← Multiset.cons_coe,
      ← Multiset.singleton_add, Multiset.coe_nil] at h2 ⊢
    rw [h2]
    abel
  · have h3x := h3
    rw [hth] at h3x
    show s.curThreadSize
        = (dequeueUpd s pre post w t rest).threads.length + s.exitCondSignals
    rw [length_dequeueUpd_threads]
    exact h3x
  · exact h4
  · intro hx
    have h5x := h5 hx
    rw [hq] at h5x
    exact absurd h5x.1 (List.cons_ne_nil t rest)
  · exact h6
  · exact h7
  · intro hd w2 hw2 hpc2
    by_cases hrest : rest = []
    · simp only [dequeueUpd, if_pos hrest] at hw2
      rcases mem_middle_elim hw2 with hm | rfl | hm
      · exact h8 hd w2 (by rw [hth]; exact mem_left_middle hm) hpc2
      · exact absurd hpc2 (by simp)
      · exact h8 hd w2 (by rw [hth]; exact mem_right_middle hm) hpc2
    · simp only [dequeueUpd, if_neg hrest] at hw2
      exact mem_notifyAllWorkers_waiting hw2 hpc2
  · intro hdone
    have h9x := h9 hdone
    rw [hth] at h9x
    simp at h9x

theorem poolInv_execDone (cfg : PoolCfg) (s : PState) (pre post : List Worker)
    (w : Worker) (t : Nat)
    (hth : s.threads = pre ++ w :: post) (hpc : w.pc = .exec t)
    (hinv : PoolInv cfg s) :
    PoolInv cfg (execDoneUpd s pre post w t) := by
  obtain ⟨h1, h2, h3, h4, h5, h6, h7, h8, h9⟩ := hinv
  have hw0 : execOf w = some t := by
    unfold execOf
    rw [hpc]
  refine ⟨?_, ?_, ?_, ?_, ?_, ?_, ?_, ?_, ?_⟩
  · exact h1
  · show (s.dequeued : Multiset Nat)
        = ↑(s.executed ++ [t]) + ↑(inflight (execDoneUpd s pre post w t))
    rw [inflight_execDoneUpd]
    rw [inflight_eq_of_threads_exec hth hw0] at h2
    simp only [← Multiset.coe_add, ← Multiset.cons_coe,
      ← Multiset.singleton_add, Multiset.coe_nil] at h2 ⊢
    rw [h2]
    abel
  · have h3x := h3
    rw [hth] at h3x
    show s.curThreadSize
        = (pre ++ ({ w with pc := WPC.loopTop } : Worker) :: post).length
            + s.exitCondSignals
    simpa using h3x
  · exact h4
  · exact h5
  · exact h6
  · exact h7
  · intro hd w2 hw2 hpc2
    rcases mem_middle_elim hw2 with hm | rfl | hm
    · exact h8 hd w2 (by rw [hth]; exact mem_left_middle hm) hpc2
    · exact absurd hpc2 (by simp)
    · exact h8 hd w2 (by rw [hth]; exact mem_right_middle hm) hpc2
  · intro hdone
    have h9x := h9 hdone
    rw [hth] at h9x
    simp at h9x

theorem poolInv_startWait (cfg : PoolCfg) (s : PState) (pre post : List Worker)
    (w : Worker) (hth : s.threads = pre ++ w :: post) (hpc : w.pc = .loopTop)
    (hrun : s.isPoolRunning = true) (hinv : PoolInv cfg s) :
    PoolInv cfg (startWaitUpd s pre post) := by
  obtain ⟨h1, h2, h3, h4, h5, h6, h7, h8, h9⟩ := hinv
  have hw0 : execOf w = none := by
    unfold execOf
    rw [hpc]
  have hd8 : ¬ (s.dtor = DtorPC.waitingExit ∨ s.dtor = DtorPC.done) := by
    intro hd
    have hne : s.dtor ≠ DtorPC.notStarted := by
      rcases hd with h | h <;> rw [h] <;> exact fun hc => DtorPC.noConfusion hc
    rw [h4.mpr hne] at hrun
    exact Bool.noConfusion hrun
  refine ⟨h1, ?_, ?_, h4, h5, h6, h7, ?_, ?_⟩
  · show (s.dequeued : Multiset Nat)
        = ↑s.executed + ↑(inflight (startWaitUpd s pre post))
    have hinf : inflight (startWaitUpd s pre post)
        = pre.filterMap execOf ++ post.filterMap execOf := by
      unfold startWaitUpd inflight
      simp [List.filterMap_append, List.filterMap_cons, execOf]
    rw [hinf, ← inflight_eq_of_threads hth hw0]
    exact h2
  · have h3x := h3
    rw [hth] at h3x
    show s.curThreadSize
        = (pre ++ ({ pc := WPC.waiting, notified := false } : Worker) :: post).length
            + s.exitCondSignals
    simpa using h3x
  · intro hd
    exact (hd8 hd).elim
  · intro hdone
    exact (hd8 (Or.inr hdone)).elim

theorem poolInv_wake (cfg : PoolCfg) (s : PState) (pre post : List Worker)
    (w : Worker) (hth : s.threads = pre ++ w :: post) (hpc : w.pc = .waiting)
    (hinv : PoolInv cfg s) :
    PoolInv cfg (wakeUpd s pre post) := by
  obtain ⟨h1, h2, h3, h4, h5, h6, h7, h8, h9⟩ := hinv
  have hw0 : execOf w = none := by
    unfold execOf
    rw [hpc]
  refine ⟨h1, ?_, ?_, h4, h5, h6, h7, ?_, ?_⟩
  · show (s.dequeued : Multiset Nat)
        = ↑s.executed + ↑(inflight (wakeUpd s pre post))
    have hinf : inflight (wakeUpd s pre post)
        = pre.filterMap execOf ++ post.filterMap execOf := by
      unfold wakeUpd inflight
      simp [List.filterMap_append, List.filterMap_cons, execOf]
    rw [hinf, ← inflight_eq_of_threads hth hw0]
    exact h2
  · have h3x := h3
    rw [hth] at h3x
    show s.curThreadSize
        = (pre ++ ({ pc := WPC.loopTop, notified := false } : Worker) :: post).length
            + s.exitCondSignals
    simpa using h3x
  · intro hd w2 hw2 hpc2
    rcases mem_middle_elim hw2 with hm | rfl | hm
    · exact h8 hd w2 (by rw [hth]; exact mem_left_middle hm) hpc2
    · exact absurd hpc2 (by simp)
    · exact h8 hd w2 (by rw [hth]; exact mem_right_middle hm) hpc2
  · intro hdone
    have h9x := h9 hdone
    rw [hth] at h9x
    simp at h9x

theorem poolInv_retire (cfg : PoolCfg) (s : PState) (pre post : List Worker)
    (w : Worker) (hth : s.threads = pre ++ w :: post) (hpc : w.pc = .waiting)
    (hcur : cfg.initThreadSize < s.curThreadSize) (hinv : PoolInv cfg s) :
    PoolInv cfg (retireUpd s pre post) := by
  obtain ⟨h1, h2, h3, h4, h5, h6, h7, h8, h9⟩ := hinv
  have hw0 : execOf w = none := by
    unfold execOf
    rw [hpc]
  refine ⟨h1, ?_, ?_, h4, h5, ?_, ?_, ?_, ?_⟩
  · show (s.dequeued : Multiset Nat)
        = ↑s.executed + ↑(inflight (retireUpd s pre post))
    have hinf : inflight (retireUpd s pre post)
        = pre.filterMap execOf ++ post.filterMap execOf := by
      unfold retireUpd inflight
      simp [List.filterMap_append]
    rw [hinf, ← inflight_eq_of_threads hth hw0]
    exact h2
  · have h3x := h3
    rw [hth] at h3x
    simp only [List.length_append, List.length_cons] at h3x
    show s.curThreadSize - 1 = (pre ++ post).length + s.exitCondSignals
    simp only [List.length_append]
    omega
  · show cfg.initThreadSize ≤ s.curThreadSize - 1
    omega
  · intro him
    have h7x := h7 him
    show s.curThreadSize - 1 ≤ cfg.threadSizeThreshold
    omega
  · intro hd w2 hw2 hpc2
    rcases List.mem_append.1 hw2 with hm | hm
    · exact h8 hd w2 (by rw [hth]; exact mem_left_middle hm) hpc2
    · exact h8 hd w2 (by rw [hth]; exact mem_right_middle hm) hpc2
  · intro hdone
    have h9x := h9 hdone
    rw [hth] at h9x
    simp at h9x

theorem poolInv_shutdownExit (cfg : PoolCfg) (s : PState) (pre post : List Worker)
    (w : Worker) (hth : s.threads = pre ++ w :: post) (hpc : w.pc = .loopTop)
    (hq : s.taskQue = []) (hrun : s.isPoolRunning = false) (hinv : PoolInv cfg s) :
    PoolInv cfg (shutdownExitUpd s pre post) := by
  obtain ⟨h1, h2, h3, h4, h5, h6, h7, h8, h9⟩ := hinv
  have hw0 : execOf w = none := by
    unfold execOf
    rw [hpc]
  refine ⟨h1, ?_, ?_, h4, ?_, h6, h7, ?_, ?_⟩
  · show (s.dequeued : Multiset Nat)
        = ↑s.executed + ↑(inflight (shutdownExitUpd s pre post))
    have hinf : inflight (shutdownExitUpd s pre post)
        = pre.filterMap execOf ++ post.filterMap execOf := by
      unfold shutdownExitUpd inflight
      simp [List.filterMap_append]
    rw [hinf, ← inflight_eq_of_threads hth hw0]
    exact h2
  · have h3x := h3
    rw [hth] at h3x
    simp only [List.length_append, List.length_cons] at h3x
    show s.curThreadSize = (pre ++ post).length + (s.exitCondSignals + 1)
    simp only [List.length_append]
    omega
  · intro _
    exact ⟨hq, hrun⟩
  · intro hd w2 hw2 hpc2
    rcases List.mem_append.1 hw2 with hm | hm
    · exact h8 hd w2 (by rw [hth]; exact mem_left_middle hm) hpc2
    · exact h8 hd w2 (by rw [hth]; exact mem_right_middle hm) hpc2
  · intro hdone
    have h9x := h9 hdone
    rw [hth] at h9x
    simp at h9x

theorem poolInv_dtorFlag (cfg : PoolCfg) (s : PState)
    (hinv : PoolInv cfg s) : PoolInv cfg (dtorFlagUpd s) := by
  obtain ⟨h1, h2, h3, h4, h5, h6, h7, h8, h9⟩ := hinv
  refine ⟨h1, h2, h3, ?_, ?_, h6, h7, ?_, ?_⟩
  · show (false = false) ↔ DtorPC.flagCleared ≠ DtorPC.notStarted
    simp
  · intro hx
    exact ⟨(h5 hx).1, rfl⟩
  · intro hd
    rcases hd with h | h <;> exact DtorPC.noConfusion h
  · intro hdone
    exact DtorPC.noConfusion hdone

theorem poolInv_dtorBroadcast (cfg : PoolCfg) (s : PState)
    (h : s.dtor = .flagCleared) (hinv : PoolInv cfg s) :
    PoolInv cfg (dtorBroadcastUpd s) := by
  obtain ⟨h1, h2, h3, h4, h5, h6, h7, h8, h9⟩ := hinv
  have hrf : s.isPoolRunning = false := by
    refine h4.mpr ?_
    rw [h]
    exact fun hc => DtorPC.noConfusion hc
  refine ⟨h1, ?_, ?_, ?_, ?_, h6, h7, ?_, ?_⟩
  · show (s.dequeued : Multiset Nat)
        = ↑s.executed + ↑(inflight (dtorBroadcastUpd s))
    have hinf : inflight (dtorBroadcastUpd s) = inflight s := by
      unfold inflight dtorBroadcastUpd
      exact filterMap_execOf_notifyAllWorkers _
    rw [hinf]
    exact h2
  · show s.curThreadSize = (notifyAllWorkers s.threads).length + s.exitCondSignals
    rw [length_notifyAllWorkers]
    exact h3
  · show s.isPoolRunning = false ↔ DtorPC.waitingExit ≠ DtorPC.notStarted
    simp [hrf]
  · intro hx
    exact ⟨(h5 hx).1, hrf⟩
  · intro _ w2 hw2 hpc2
    exact mem_notifyAllWorkers_waiting hw2 hpc2
  · intro hdone
    exact DtorPC.noConfusion hdone

theorem poolInv_dtorFinish (cfg : PoolCfg) (s : PState)
    (h : s.dtor = .waitingExit) (hth : s.threads = [])
    (hinv : PoolInv cfg s) : PoolInv cfg (dtorFinishUpd s) := by
  obtain ⟨h1, h2, h3, h4, h5, h6, h7, h8, h9⟩ := hinv
  have hrf : s.isPoolRunning = false := by
    refine h4.mpr ?_
    rw [h]
    exact fun hc => DtorPC.noConfusion hc
  refine ⟨h1, h2, h3, ?_, ?_, h6, h7, ?_, ?_⟩
  · show s.isPoolRunning = false ↔ DtorPC.done ≠ DtorPC.notStarted
    simp [hrf]
  · intro hx
    exact ⟨(h5 hx).1, hrf⟩
  · intro _ w2 hw2 hpc2
    have hmem : w2 ∈ s.threads := hw2
    rw [hth] at hmem
    simp at hmem
  · intro _
    exact hth

/-- The invariant holds right after `start`. -/
theorem poolInv_startState (cfg : PoolCfg) (q0 : List Nat) :
    PoolInv cfg (startState cfg q0) := by
  refine ⟨?_, ?_, ?_, ?_, ?_, ?_, ?_, ?_, ?_⟩
  · simp [startState]
  · show ((([] : List Nat)) : Multiset Nat)
        = ↑([] : List Nat) + ↑(inflight (startState cfg q0))
    have hinf : inflight (startState cfg q0) = [] := by
      unfold inflight startState
      rw [List.filterMap_eq_nil_iff]
      intro w hw
      rw [List.eq_of_mem_replicate hw]
      rfl
    rw [hinf]
    rfl
  · show cfg.initThreadSize
        = (List.replicate cfg.initThreadSize
            ({ pc := WPC.loopTop, notified := false } : Worker)).length + 0
    simp
  · show (true = false) ↔ DtorPC.notStarted ≠ DtorPC.notStarted
    simp
  · intro hx
    exact absurd hx (Nat.not_succ_le_zero 0)
  · exact Nat.le_refl _
  · intro him
    exact him
  · intro hd
    rcases hd with h | h <;> exact DtorPC.noConfusion h
  · intro hdone
    exact DtorPC.noConfusion hdone

/-- The invariant is preserved by every transition. -/
theorem poolInv_step (cfg : PoolCfg) {s s2 : PState} (hinv : PoolInv cfg s)
    (hstep : PoolStep cfg s s2) : PoolInv cfg s2 := by
  cases hstep with
  | submit t hrun hcap => exact poolInv_submit cfg s t hrun hinv
  | dequeue pre post w t rest hth hpc hq =>
      exact poolInv_dequeue cfg s pre post w t rest hth hpc hq hinv
  | execDone pre post w t hth hpc =>
      exact poolInv_execDone cfg s pre post w t hth hpc hinv
  | startWait pre post w hth hpc hq hrun =>
      exact poolInv_startWait cfg s pre post w hth hpc hrun hinv
  | wake pre post w hth hpc =>
      exact poolInv_wake cfg s pre post w hth hpc hinv
  | retire pre post w hmode hth hpc hcur =>
      exact poolInv_retire cfg s pre post w hth hpc hcur hinv
  | shutdownExit pre post w hth hpc hq hrun =>
      exact poolInv_shutdownExit cfg s pre post w hth hpc hq hrun hinv
  | dtorFlag h => exact poolInv_dtorFlag cfg s hinv
  | dtorBroadcast h => exact poolInv_dtorBroadcast cfg s h hinv
  | dtorFinish h hth => exact poolInv_dtorFinish cfg s h hth hinv

/-- The invariant holds in every reachable state. -/
theorem poolInv_reach (cfg : PoolCfg) (q0 : List Nat) {s : PState}
    (h : PoolReach cfg q0 s) : PoolInv cfg s := by
  induction h with
  | init => exact poolInv_startState cfg q0
  | step _ hs ih => exact poolInv_step cfg ih hs

/-! ### Reachability of the concrete traces -/

theorem reach_trA4 : PoolReach cfgFixed1 [] trA4 := by
  have h0 : PoolReach cfgFixed1 [] trA0 := PoolReach.init
  have h1 : PoolReach cfgFixed1 [] trA1 :=
    PoolReach.step h0 (PoolStep.dtorFlag trA0 (by decide))
  have h2 : PoolReach cfgFixed1 [] trA2 :=
    PoolReach.step h1 (PoolStep.dtorBroadcast trA1 (by decide))
  have h3 : PoolReach cfgFixed1 [] trA3 :=
    PoolReach.step h2 (PoolStep.shutdownExit trA2 [] [] ⟨.loopTop, false⟩
      (by decide) (by decide) (by decide) (by decide))
  exact PoolReach.step h3 (PoolStep.dtorFinish trA3 (by decide) (by decide))

theorem reach_trB3 : PoolReach cfgFixed1 [] trB3 := by
  have h0 : PoolReach cfgFixed1 [] trA0 := PoolReach.init
  have h1 : PoolReach cfgFixed1 [] trB1 :=
    PoolReach.step h0 (PoolStep.startWait trA0 [] [] ⟨.loopTop, false⟩
      (by decide) (by decide) (by decide) (by decide))
  have h2 : PoolReach cfgFixed1 [] trB2 :=
    PoolReach.step h1 (PoolStep.dtorFlag trB1 (by decide))
  exact PoolReach.step h2 (PoolStep.dtorBroadcast trB2 (by decide))

theorem reach_trC2 : PoolReach cfgCached1 [] trC2 := by
  have h0 : PoolReach cfgCached1 [] (startState cfgCached1 []) := PoolReach.init
  have h1 : PoolReach cfgCached1 [] trC1 :=
    PoolReach.step h0 (PoolStep.submit (startState cfgCached1 []) 10
      (by decide) (by decide))
  exact PoolReach.step h1 (PoolStep.dequeue trC1 [] [] ⟨.loopTop, false⟩ 10 []
    (by decide) (by decide) (by decide))

theorem reach_trC3 : PoolReach cfgCached1 [] trC3 :=
  PoolReach.step reach_trC2 (PoolStep.submit trC2 20 (by decide) (by decide))

theorem reach_trC7 : PoolReach cfgCached1 [] trC7 := by
  have h4 : PoolReach cfgCached1 [] trC4 :=
    PoolReach.step reach_trC3 (PoolStep.dequeue trC3 [⟨.exec 10, false⟩] []
      ⟨.loopTop, false⟩ 20 [] (by decide) (by decide) (by decide))
  have h5 : PoolReach cfgCached1 [] trC5 :=
    PoolReach.step h4 (PoolStep.execDone trC4 [] [⟨.exec 20, false⟩]
      ⟨.exec 10, false⟩ 10 (by decide) (by decide))
  have h6 : PoolReach cfgCached1 [] trC6 :=
    PoolReach.step h5 (PoolStep.execDone trC5 [⟨.loopTop, false⟩] []
      ⟨.exec 20, false⟩ 20 (by decide) (by decide))
  exact PoolReach.step h6 (PoolStep.startWait trC6 [⟨.loopTop, false⟩] []
    ⟨.loopTop, false⟩ (by decide) (by decide) (by decide) (by decide))

/-- C1: for a pool started with at least one worker, whenever the
destructor's `exitCond_.wait` has returned, the worker registry is empty,
the task queue is empty, the dequeue history equals the acceptance history
(every accepted task was dequeued, in order), and the multiset of
completed `exec()` calls equals the multiset of accepted tasks — no
accepted task is lost by shutdown.  Workers exit only from inside the
`while (taskQue_.size() == 0)` loop, so they drain the queue first. -/
theorem c1_shutdown_drains (cfg : PoolCfg) (q0 : List Nat) (s : PState)
    (hinit : 1 ≤ cfg.initThreadSize) (hreach : PoolReach cfg q0 s)
    (hdone : s.dtor = DtorPC.done) :
    s.threads = [] ∧ s.taskQue = [] ∧ s.dequeued = s.accepted
    ∧ (s.executed : Multiset Nat) = (s.accepted : Multiset Nat) := by
  obtain ⟨h1, h2, h3, h4, h5, h6, h7, h8, h9⟩ := poolInv_reach cfg q0 hreach
  have hth : s.threads = [] := h9 hdone
  have hx : 1 ≤ s.exitCondSignals := by
    rw [hth] at h3
    simp only [List.length_nil, Nat.zero_add] at h3
    omega
  have hq : s.taskQue = [] := (h5 hx).1
  have hda : s.dequeued = s.accepted := by
    rw [hq, List.append_nil] at h1
    exact h1.symm
  have hinf : inflight s = [] := by
    rw [inflight, hth]
    rfl
  rw [hinf] at h2
  simp only [Multiset.coe_nil, add_zero] at h2
  exact ⟨hth, hq, hda, by rw [← h2, hda]⟩

/-- Witness for C1: the one-worker fixed pool of trace A, shut down
completely. -/
theorem c1_shutdown_drains_witness :
    (1 ≤ cfgFixed1.initThreadSize ∧ trA4.dtor = DtorPC.done)
    ∧ (trA4.threads = [] ∧ trA4.taskQue = [] ∧ trA4.dequeued = trA4.accepted
       ∧ (trA4.executed : Multiset Nat) = (trA4.accepted : Multiset Nat)) :=
  ⟨⟨by decide, by decide⟩,
   c1_shutdown_drains cfgFixed1 [] trA4 (by decide) reach_trA4 (by decide)⟩

/-- C3: in every reachable state the acceptance history is the dequeue
history followed by the queue content, so the i-th dequeued task is the
i-th accepted task (strict FIFO); and each dequeue step decrements
`idleThreadSize_`, pops exactly the front task, broadcasts `notEmpty_`
again if tasks remain, and broadcasts `notFull_`. -/
theorem c3_fifo_dequeue :
    (∀ (cfg : PoolCfg) (q0 : List Nat) (s : PState), PoolReach cfg q0 s →
      s.accepted = s.dequeued ++ s.taskQue
      ∧ ∀ i : Nat, i < s.dequeued.length → s.accepted[i]? = s.dequeued[i]?)
    ∧ (∀ (s : PState) (pre post : List Worker) (w : Worker) (t : Nat)
        (rest : List Nat),
        (dequeueUpd s pre post w t rest).idleThreadSize = s.idleThreadSize - 1
        ∧ (dequeueUpd s pre post w t rest).taskQue = rest
        ∧ (dequeueUpd s pre post w t rest).dequeued = s.dequeued ++ [t]
        ∧ (dequeueUpd s pre post w t rest).notFullSignals = s.notFullSignals + 1
        ∧ (rest ≠ [] →
            (dequeueUpd s pre post w t rest).notEmptySignals
              = s.notEmptySignals + 1)) := by
  constructor
  · intro cfg q0 s hreach
    obtain ⟨h1, _, _, _, _, _, _, _, _⟩ := poolInv_reach cfg q0 hreach
    refine ⟨h1, ?_⟩
    intro i hi
    rw [h1, List.getElem?_append, if_pos hi]
  · intro s pre post w t rest
    unfold dequeueUpd
    by_cases hrest : rest = [] <;> simp [hrest]

/-- Witness for C3: the two-submission cached trace, checked after the
first dequeue, plus the concrete effect of the second dequeue. -/
theorem c3_fifo_dequeue_witness :
    (trC2.accepted = trC2.dequeued ++ trC2.taskQue
     ∧ ((0 : Nat) < trC2.dequeued.length ∧ trC2.accepted[0]? = trC2.dequeued[0]?))
    ∧ ((10 : Nat) :: [] ≠ []
       ∧ ((dequeueUpd trC1 [] [] ⟨.loopTop, false⟩ 10 ((10 : Nat) :: [])).notEmptySignals
            = trC1.notEmptySignals + 1)) := by
  refine ⟨⟨(c3_fifo_dequeue.1 cfgCached1 [] trC2 reach_trC2).1,
    by decide, (c3_fifo_dequeue.1 cfgCached1 [] trC2 reach_trC2).2 0 (by decide)⟩,
    by decide,
    (c3_fifo_dequeue.2 trC1 [] [] ⟨.loopTop, false⟩ 10 ((10 : Nat) :: [])).2.2.2.2
      (by decide)⟩

/-- C4 is false as universally stated: `start(initThreadSize)` sets
`curThreadSize_ = initThreadSize` without consulting
`threadSizeThreshold_`, so a cached pool started with 101 workers while
the threshold is the default 100 is a reachable running state with
`current_workers > max_workers`. -/
theorem c4_counterexample :
    cfgCached101.poolMode = PoolMode.cached
    ∧ PoolReach cfgCached101 [] (startState cfgCached101 [])
    ∧ (startState cfgCached101 []).isPoolRunning = true
    ∧ cfgCached101.threadSizeThreshold
        < (startState cfgCached101 []).curThreadSize :=
  ⟨rfl, PoolReach.init, rfl, by decide⟩

/-- C4 amended: provided the pool is started with
`initThreadSize_ ≤ threadSizeThreshold_`, in cached mode every reachable
running state satisfies
`initThreadSize_ ≤ curThreadSize_ ≤ threadSizeThreshold_`: a worker is
spawned only under `curThreadSize_ < threadSizeThreshold_` and an idle
worker retires only under `curThreadSize_ > initThreadSize_`. -/
theorem c4_cached_worker_bounds (cfg : PoolCfg) (q0 : List Nat) (s : PState)
    (_hmode : cfg.poolMode = PoolMode.cached)
    (hle : cfg.initThreadSize ≤ cfg.threadSizeThreshold)
    (hreach : PoolReach cfg q0 s) (_hrun : s.isPoolRunning = true) :
    cfg.initThreadSize ≤ s.curThreadSize
    ∧ s.curThreadSize ≤ cfg.threadSizeThreshold := by
  obtain ⟨_, _, _, _, _, h6, h7, _, _⟩ := poolInv_reach cfg q0 hreach
  exact ⟨h6, h7 hle⟩

/-- Witness for the amended C4: the cached trace after the spawn, where
`curThreadSize_ = 2` lies between 1 and 8. -/
theorem c4_cached_worker_bounds_witness :
    (cfgCached1.poolMode = PoolMode.cached
     ∧ cfgCached1.initThreadSize ≤ cfgCached1.threadSizeThreshold
     ∧ trC3.isPoolRunning = true)
    ∧ (cfgCached1.initThreadSize ≤ trC3.curThreadSize
       ∧ trC3.curThreadSize ≤ cfgCached1.threadSizeThreshold) :=
  ⟨⟨rfl, by decide, by decide⟩,
   c4_cached_worker_bounds cfgCached1 [] trC3 rfl (by decide) reach_trC3
     (by decide)⟩

/-- C7 is false as stated: in `~ThreadPool` the write
`isPoolRunning_ = false` (line 28) happens before the `unique_lock` on
`taskQueMtx_` is constructed (line 41), not after the mutex is acquired. -/
theorem c7_counterexample :
    dtorBody.indexOf DtorInstr.setRunningFalse
      < dtorBody.indexOf DtorInstr.acquireMutex
    ∧ ¬ (dtorBody.indexOf DtorInstr.acquireMutex
          < dtorBody.indexOf DtorInstr.setRunningFalse) := by
  decide

/-- C7 amended: the running flag is cleared before the mutex is acquired
(an unlocked write), but the `notEmpty_` broadcast is issued immediately
after the acquisition with no release in between, and before the
`exitCond_` wait; consequently no wakeup is lost: in every reachable
state in which the destructor has broadcast, every worker still blocked
on `notEmpty_` holds a pending notification (workers only enter the wait
after re-checking `isPoolRunning_` under the same mutex). -/
theorem c7_shutdown_wakeup :
    (dtorBody.indexOf DtorInstr.setRunningFalse
        < dtorBody.indexOf DtorInstr.acquireMutex
     ∧ dtorBody.indexOf DtorInstr.acquireMutex + 1
        = dtorBody.indexOf DtorInstr.broadcastNotEmpty
     ∧ dtorBody.indexOf DtorInstr.broadcastNotEmpty
        < dtorBody.indexOf DtorInstr.waitExitCond
     ∧ dtorBody.indexOf DtorInstr.waitExitCond
        < dtorBody.indexOf DtorInstr.releaseMutex)
    ∧ ∀ (cfg : PoolCfg) (q0 : List Nat) (s : PState), PoolReach cfg q0 s →
        (s.dtor = DtorPC.waitingExit ∨ s.dtor = DtorPC.done) →
        ∀ w ∈ s.threads, w.pc = WPC.waiting → w.notified = true := by
  constructor
  · decide
  · intro cfg q0 s hreach hd
    obtain ⟨_, _, _, _, _, _, _, h8, _⟩ := poolInv_reach cfg q0 hreach
    exact h8 hd

/-- Witness for the amended C7: trace B, in which a worker blocked before
the destructor ran; after the destructor's broadcast the worker's wakeup
is pending. -/
theorem c7_shutdown_wakeup_witness :
    (trB3.dtor = DtorPC.waitingExit ∨ trB3.dtor = DtorPC.done)
    ∧ ∀ w ∈ trB3.threads, w.pc = WPC.waiting → w.notified = true :=
  ⟨Or.inl (by decide),
   c7_shutdown_wakeup.2 cfgFixed1 [] trB3 reach_trB3 (Or.inl (by decide))⟩

/-- C8 is false: the cached-mode idle-retire path
(`threads_.erase(threadId); curThreadSize_--; idleThreadSize_--; return;`)
removes the worker from the registry without notifying `exitCond_`.  The
reachable trace C ends with a retire step that shrinks the registry while
the `exitCond_` signal count stays unchanged. -/
theorem c8_counterexample :
    PoolReach cfgCached1 [] trC7
    ∧ PoolStep cfgCached1 trC7 trC8
    ∧ trC8.threads.length + 1 = trC7.threads.length
    ∧ trC8.exitCondSignals = trC7.exitCondSignals := by
  refine ⟨reach_trC7, ?_, by decide, by decide⟩
  exact PoolStep.retire trC7 [⟨.loopTop, false⟩] [] ⟨.waiting, false⟩
    (by decide) (by decide) (by decide) (by decide)

/-- C8 amended: only the shutdown-exit path signals `exitCond_` when a
worker erases itself; the cached idle-retire path erases the worker and
leaves the `exitCond_` signal count unchanged. -/
theorem c8_exit_signalling (s : PState) (pre post : List Worker) :
    ((shutdownExitUpd s pre post).threads = pre ++ post
     ∧ (shutdownExitUpd s pre post).exitCondSignals = s.exitCondSignals + 1)
    ∧ ((retireUpd s pre post).threads = pre ++ post
       ∧ (retireUpd s pre post).exitCondSignals = s.exitCondSignals) :=
  ⟨⟨rfl, rfl⟩, ⟨rfl, rfl⟩⟩
